import Mathlib

/-!
# Verification of the lineage extraction pipeline and lineage query engine

This development gives a shallow embedding of the core of the repository:

* scripts/build_metadata.py: the statement splitter and cleaner
  (GenericSQLParser.clean_sql, GenericSQLParser.parse_file), the lineage
  extractor (GenericSQLParser.parse_statement with its four regular
  expressions), and the transactional metadata build (MetadataBuilder.build);
* scripts/debug_engine.py: identifier validation (validate_identifier and
  the SAFE_IDENTIFIER regular expression), the lineage query operations
  (DebugEngine.trace_column_lineage, DebugEngine.get_upstream_tables,
  DebugEngine.get_lineage_tree).

The Python regular expressions are embedded through a small backtracking
regular-expression engine over lists of characters whose priority order
(leftmost match; greedy quantifiers try longer first, lazy quantifiers
shorter first; alternation tries the left branch first; an optional group
tries the present branch first) is exactly the order the CPython re engine
uses, so that the first result returned by the engine is the match CPython
returns.  Each of the four patterns of GenericSQLParser is transcribed
constructor by constructor from its pattern string.

All statements handled here are ASCII, so the ASCII-only readings of the
character classes [a-zA-Z0-9_] and of str.lower used below agree with
Python.  Python raising ValueError is modelled with Except String;
database-backed state is modelled by explicit structures holding the rows
of the two metadata fact tables.
-/

set_option autoImplicit false
set_option maxRecDepth 10000

namespace DebugAI

/-! ## Character helpers (ASCII readings of the Python character classes) -/

/-- Decidable equality for fallible results, so that concrete runs of the
fallible operations can be checked by evaluation. -/
instance {ε α : Type} [DecidableEq ε] [DecidableEq α] : DecidableEq (Except ε α)
  | .error e, .error e' =>
    if h : e = e' then .isTrue (by rw [h]) else .isFalse (by intro hc; cases hc; exact h rfl)
  | .error _, .ok _ => .isFalse (by intro hc; cases hc)
  | .ok _, .error _ => .isFalse (by intro hc; cases hc)
  | .ok a, .ok a' =>
    if h : a = a' then .isTrue (by rw [h]) else .isFalse (by intro hc; cases hc; exact h rfl)

/-- Characters Python str.strip and the regex class backslash-s treat as
whitespace: space, tab, newline, carriage return, vertical tab, form feed. -/
def isPySpace (c : Char) : Bool :=
  c = ' ' || c = '\t' || c = '\n' || c = '\r' || c = '\x0b' || c = '\x0c'

/-- Is the character inside the inclusive range from lo to hi? -/
def charBetween (lo hi c : Char) : Bool :=
  lo ≤ c && c ≤ hi

/-- The regex word-character class: letters, digits and underscore. -/
def isWordChar (c : Char) : Bool :=
  charBetween 'a' 'z' c || charBetween 'A' 'Z' c || charBetween '0' '9' c || c = '_'

/-- ASCII lower-casing of a single character, as Python str.lower does on
ASCII input. -/
def lowerChar (c : Char) : Char :=
  if charBetween 'A' 'Z' c then Char.ofNat (c.toNat + 32) else c

/-- ASCII lower-casing of a string (Python str.lower on ASCII input). -/
def pyLower (s : String) : String :=
  String.mk (s.data.map lowerChar)

/-! ## Python string primitives

Lean core implements String.splitOn with well-founded recursion over byte
positions, which the kernel cannot unfold, so splitting, stripping and
joining are re-implemented here over lists of characters with structural
or fuel recursion that the kernel evaluates. -/

/-- Python str.strip with no argument: remove leading and trailing
whitespace characters. -/
def pyStripL (l : List Char) : List Char :=
  ((l.dropWhile isPySpace).reverse.dropWhile isPySpace).reverse

/-- Python str.strip on a string. -/
def pyStrip (s : String) : String :=
  String.mk (pyStripL s.data)

/-- Does the second list start with the first one? -/
def startsWithL : List Char → List Char → Bool
  | [], _ => true
  | _ :: _, [] => false
  | p :: ps, c :: cs => p = c && startsWithL ps cs

/-- Helper for pySplit: cur is the reversed current fragment; fuel bounds
the recursion (pySplit passes enough fuel for the whole input). -/
def pySplitAux (sep : List Char) : Nat → List Char → List Char → List (List Char)
  | _, cur, [] => [cur.reverse]
  | 0, cur, l => [cur.reverse ++ l]
  | fuel + 1, cur, c :: cs =>
    if startsWithL sep (c :: cs) then
      cur.reverse :: pySplitAux sep fuel [] ((c :: cs).drop sep.length)
    else
      pySplitAux sep fuel (c :: cur) cs

/-- Python str.split with a non-empty separator: split at every
non-overlapping occurrence, scanning left to right, keeping empty pieces. -/
def pySplit (sep : List Char) (l : List Char) : List (List Char) :=
  pySplitAux sep (l.length + 1) [] l

/-- Python sep.join for a string separator, over lists of characters. -/
def joinSepL (sep : List Char) : List (List Char) → List Char
  | [] => []
  | [x] => x
  | x :: y :: xs => x ++ sep ++ joinSepL sep (y :: xs)

/-- Python '\n'.join over strings. -/
def joinNl (l : List String) : String :=
  String.mk (joinSepL ['\n'] (l.map String.data))

/-- Python ', '.join over strings. -/
def joinCommaSp (l : List String) : String :=
  String.mk (joinSepL [',', ' '] (l.map String.data))

/-! ## A small backtracking regular-expression engine

Only the constructs appearing in the four patterns of GenericSQLParser are
supported.  runRE returns every way the expression can match a prefix of
the remaining input, in exactly the priority order the CPython backtracking
engine explores alternatives, so the head of the returned list is the
match Python picks.  All four patterns are compiled with re.IGNORECASE, so
literals compare case-insensitively; CASE_PATTERN additionally uses
re.DOTALL, and lazyAny below therefore lets the dot match newlines. -/

/-- Syntax of the regular expressions used by GenericSQLParser. -/
inductive RE where
  /-- A case-insensitive literal (all patterns carry re.IGNORECASE). -/
  | lit (s : List Char)
  /-- A single character from a class, for example the dot in an
  identifier or a parenthesis. -/
  | cls (p : Char → Bool)
  /-- Greedy one-or-more repetition of a character class. -/
  | plus (p : Char → Bool)
  /-- Greedy zero-or-more repetition of a character class. -/
  | star (p : Char → Bool)
  /-- Lazy one-or-more repetition of the dot under re.DOTALL. -/
  | lazyAny
  /-- Greedy optional group. -/
  | opt (r : RE)
  /-- Alternation, left branch preferred. -/
  | alt (r₁ r₂ : RE)
  /-- Concatenation. -/
  | seq (r₁ r₂ : RE)
  /-- Word boundary. -/
  | wb
  /-- Numbered capture group. -/
  | grp (n : Nat) (r : RE)

/-- State of a partial match: the remaining input, the character just
before it (for word boundaries) and the captures recorded so far. -/
structure MState where
  rest : List Char
  prev : Option Char
  caps : List (Nat × List Char)

/-- Consume a case-insensitive literal from the front of the input. -/
def consumeLit : List Char → MState → Option MState
  | [], st => some st
  | p :: ps, st =>
    match st.rest with
    | [] => none
    | c :: cs =>
      if lowerChar c = lowerChar p then
        consumeLit ps ⟨cs, some c, st.caps⟩
      else
        none

/-- The state after consuming exactly k characters (k at least 1 is the
callers' invariant, so prev is set to the last consumed character). -/
def consumeK (st : MState) (k : Nat) : MState :=
  ⟨st.rest.drop k,
   (match (st.rest.take k).getLast? with
    | some c => some c
    | none => st.prev),
   st.caps⟩

/-- Is the head of the list a word character? -/
def headIsWord : List Char → Bool
  | [] => false
  | c :: _ => isWordChar c

/-- Is an optional character a word character? -/
def optIsWord : Option Char → Bool
  | none => false
  | some c => isWordChar c

/-- All ways an expression can consume a prefix of the input, most
preferred first (CPython backtracking order). -/
def runRE : RE → MState → List MState
  | .lit s, st => (consumeLit s st).toList
  | .cls p, st =>
    match st.rest with
    | [] => []
    | c :: cs => if p c then [⟨cs, some c, st.caps⟩] else []
  | .plus p, st =>
    let m := (st.rest.takeWhile p).length
    (List.range m).map (fun i => consumeK st (m - i))
  | .star p, st =>
    let m := (st.rest.takeWhile p).length
    ((List.range m).map (fun i => consumeK st (m - i))) ++ [st]
  | .lazyAny, st =>
    (List.range st.rest.length).map (fun i => consumeK st (i + 1))
  | .opt r, st => runRE r st ++ [st]
  | .alt r₁ r₂, st => runRE r₁ st ++ runRE r₂ st
  | .seq r₁ r₂, st => ((runRE r₁ st).map (runRE r₂)).flatten
  | .wb, st => if optIsWord st.prev != headIsWord st.rest then [st] else []
  | .grp n r, st =>
    (runRE r st).map (fun st' =>
      ⟨st'.rest, st'.prev, st'.caps ++ [(n, st.rest.take (st.rest.length - st'.rest.length))]⟩)

/-- re.search: try the pattern at each position from left to right and
return the first (highest-priority) match, as Python does. -/
def reSearchFrom (r : RE) : Option Char → List Char → Option MState
  | prev, l =>
    match (runRE r ⟨l, prev, []⟩).head? with
    | some st => some st
    | none =>
      match l with
      | [] => none
      | c :: cs => reSearchFrom r (some c) cs

/-- Helper for reFinditer; the fuel bounds the number of matches, which is
at most the input length because every pattern used here consumes at least
one character per match. -/
def reFinditerAux (r : RE) : Nat → Option Char → List Char → List MState
  | 0, _, _ => []
  | fuel + 1, prev, l =>
    match reSearchFrom r prev l with
    | none => []
    | some st => st :: reFinditerAux r fuel st.prev st.rest

/-- re.finditer: all non-overlapping matches, scanning left to right and
resuming after the end of each match. -/
def reFinditer (r : RE) (l : List Char) : List MState :=
  reFinditerAux r (l.length + 1) none l

/-- The text captured by group n, as a string (empty if the group did not
participate; every use below is of groups that always participate). -/
def capture (n : Nat) (st : MState) : String :=
  String.mk (((st.caps.find? (fun p => p.1 = n)).map Prod.snd).getD [])

/-- Concatenation of a list of expressions. -/
def catRE : List RE → RE
  | [] => .lit []
  | [r] => r
  | r :: s :: rs => .seq r (catRE (s :: rs))

/-- Left-nested alternation of a list of literals, first preferred. -/
def altLits : List String → RE
  | [] => .lit []
  | [s] => .lit s.data
  | s :: t :: rs => .alt (.lit s.data) (altLits (t :: rs))

/-! ## The four patterns of GenericSQLParser, transcribed from
scripts/build_metadata.py -/

/-- Whitespace, one or more. -/
def wsp : RE := .plus isPySpace

/-- Word characters, one or more. -/
def wordp : RE := .plus isWordChar

/-- The identifier group body of CREATE_PATTERN and SOURCE_PATTERN:
word characters, optionally followed by a dot and more word characters. -/
def identRE : RE := .seq wordp (.opt (.seq (.cls (fun c => c = '.')) wordp))

/-- CREATE_PATTERN from build_metadata.py:
CREATE whitespace (OR whitespace REPLACE whitespace)? (TABLE or VIEW)
whitespace (IF whitespace NOT whitespace EXISTS whitespace)? and the
captured identifier, compiled with re.IGNORECASE. -/
def CREATE_PATTERN : RE :=
  catRE [.lit "CREATE".data, wsp,
         .opt (catRE [.lit "OR".data, wsp, .lit "REPLACE".data, wsp]),
         .alt (.lit "TABLE".data) (.lit "VIEW".data), wsp,
         .opt (catRE [.lit "IF".data, wsp, .lit "NOT".data, wsp, .lit "EXISTS".data, wsp]),
         .grp 1 identRE]

/-- SOURCE_PATTERN from build_metadata.py: a word boundary, FROM or JOIN,
whitespace and the captured identifier, compiled with re.IGNORECASE. -/
def SOURCE_PATTERN : RE :=
  catRE [.wb, .alt (.lit "FROM".data) (.lit "JOIN".data), wsp, .grp 1 identRE]

/-- CASE_PATTERN from build_metadata.py: a captured CASE whitespace
lazy-any END span, whitespace, optional AS whitespace, and the captured
column word, compiled with re.IGNORECASE and re.DOTALL. -/
def CASE_PATTERN : RE :=
  catRE [.grp 1 (catRE [.lit "CASE".data, wsp, .lazyAny, .lit "END".data]),
         wsp, .opt (.seq (.lit "AS".data) wsp), .grp 2 wordp]

/-- AGG_PATTERN from build_metadata.py: a captured aggregate call (one of
the listed function names, optional whitespace, an open parenthesis, one
or more non-close-parenthesis characters, a close parenthesis),
whitespace, optional AS whitespace, and the captured column word, compiled
with re.IGNORECASE. -/
def AGG_PATTERN : RE :=
  catRE [.grp 1 (catRE [altLits ["SUM", "AVG", "COUNT", "MIN", "MAX", "COALESCE", "NULLIF"],
                        .star isPySpace,
                        .cls (fun c => c = '('),
                        .plus (fun c => c ≠ ')'),
                        .cls (fun c => c = ')')]),
         wsp, .opt (.seq (.lit "AS".data) wsp), .grp 2 wordp]

/-! ## The statement cleaner and the lineage extractor
(GenericSQLParser.clean_sql and GenericSQLParser.parse_statement) -/

/-- Drop the first complete close delimiter of a block comment, returning
the characters after it, or none when no close delimiter occurs. -/
def dropBlockClose : List Char → Option (List Char)
  | '*' :: '/' :: rest => some rest
  | _ :: rest => dropBlockClose rest
  | [] => none

/-- Helper for removeBlockComments; the fuel bounds the recursion (at
least one character is consumed per step).  When an open delimiter has no
matching close delimiter, no occurrence of the block-comment pattern can
match anywhere in the remaining text (a match needs a close delimiter,
and none is left), so the text is returned unchanged, exactly as re.sub
leaves it. -/
def removeBlockCommentsAux : Nat → List Char → List Char
  | 0, l => l
  | fuel + 1, l =>
    match l with
    | [] => []
    | '/' :: '*' :: rest =>
      match dropBlockClose rest with
      | some rest' => removeBlockCommentsAux fuel rest'
      | none => l
    | c :: rest => c :: removeBlockCommentsAux fuel rest

/-- re.sub of the non-greedy block-comment pattern (slash star, lazy any
including newlines, star slash) with the empty string: every leftmost
shortest block comment is deleted. -/
def removeBlockComments (l : List Char) : List Char :=
  removeBlockCommentsAux l.length l

/-- GenericSQLParser.clean_sql: split the text into lines, truncate each
line at its first single-line comment marker, rejoin the lines, then
delete block comments. -/
def clean_sql (sql : String) : String :=
  let lines := (pySplit ['\n'] sql.data).map (fun line => (pySplit ['-', '-'] line).headD [])
  String.mk (removeBlockComments (joinSepL ['\n'] lines))

/-- A table-to-table lineage record (dataclass TableLineage). -/
structure TableLineage where
  target_table : String
  source_table : String
  sql_text : String
deriving DecidableEq, Repr

/-- A column-level lineage record (dataclass ColumnLineage). -/
structure ColumnLineage where
  target_table : String
  target_column : String
  source_table : String
  source_column : String
  transformation_logic : String
  sql_file_name : String
deriving DecidableEq, Repr

/-- The target of the statement: group 1 of the first CREATE_PATTERN
match, if any. -/
def createTarget (cs : List Char) : Option String :=
  (reSearchFrom CREATE_PATTERN none cs).map (capture 1)

/-- Group 1 of every SOURCE_PATTERN match, in match order. -/
def sourceRefs (cs : List Char) : List String :=
  (reFinditer SOURCE_PATTERN cs).map (capture 1)

/-- Helper for dedupKeepFirst carrying the set of names already seen. -/
def dedupKeepFirstAux : List String → List String → List String
  | _, [] => []
  | seen, x :: xs =>
    if x ∈ seen then dedupKeepFirstAux seen xs
    else x :: dedupKeepFirstAux (x :: seen) xs

/-- The distinct elements of a list in order of first occurrence.  This
canonically represents the contents of the Python set built in
parse_statement; the iteration order CPython actually uses is supplied
separately (see parse_statement). -/
def dedupKeepFirst (l : List String) : List String :=
  dedupKeepFirstAux [] l

/-- The contents of the sources set of parse_statement: every
SOURCE_PATTERN reference whose lower-casing differs from the target's,
one occurrence per distinct string (Python set membership is
case-sensitive string equality). -/
def sourcesOf (target : String) (cs : List Char) : List String :=
  dedupKeepFirst ((sourceRefs cs).filter (fun s => pyLower s ≠ pyLower target))

/-- The pairs (group 1 stripped, group 2 stripped) of every CASE_PATTERN
match, in match order. -/
def caseMatches (cs : List Char) : List (String × String) :=
  (reFinditer CASE_PATTERN cs).map (fun st => (pyStrip (capture 1 st), pyStrip (capture 2 st)))

/-- The pairs (group 1 stripped, group 2 stripped) of every AGG_PATTERN
match, in match order. -/
def aggMatches (cs : List Char) : List (String × String) :=
  (reFinditer AGG_PATTERN cs).map (fun st => (pyStrip (capture 1 st), pyStrip (capture 2 st)))

/-- The aggregation loop of parse_statement: for each aggregate match in
order, skip it when any already-recorded column-lineage fact (from the
CASE loop or from an earlier aggregate match) has the same target_column,
otherwise append an AGGREGATED fact. -/
def addAggFacts (target srcStr filename : String)
    (acc : List ColumnLineage) : List (String × String) → List ColumnLineage
  | [] => acc
  | m :: ms =>
    if acc.any (fun cl => cl.target_column = m.2) then
      addAggFacts target srcStr filename acc ms
    else
      addAggFacts target srcStr filename
        (acc ++ [⟨target, m.2, srcStr, "AGGREGATED", m.1, filename⟩]) ms

/-- GenericSQLParser.parse_statement.  The parameter o supplies the
iteration order of the Python set of sources: CPython iterates a set of
strings in an order determined by the per-process string hash seed, so
the order is some permutation of the distinct collected sources but is
not specified; every theorem below either holds for all permutations o
or instantiates o explicitly.  The set is iterated for the table-lineage
facts and joined with a comma for the column facts in the same order. -/
def parse_statement (o : List String → List String) (sql filename : String) :
    List TableLineage × List ColumnLineage :=
  let cs := clean_sql sql
  match createTarget cs.data with
  | none => ([], [])
  | some target =>
    let srcs := o (sourcesOf target cs.data)
    let srcStr := if srcs.isEmpty then "UNKNOWN" else joinCommaSp srcs
    let tls := srcs.map (fun s => (⟨target, s, cs⟩ : TableLineage))
    let ccs := (caseMatches cs.data).map
      (fun m => (⟨target, m.2, srcStr, "COMPUTED", m.1, filename⟩ : ColumnLineage))
    (tls, addAggFacts target srcStr filename ccs (aggMatches cs.data))

/-! ## The statement splitter (GenericSQLParser.parse_file) and the
per-pass fact collection (MetadataBuilder.build, parsing phase) -/

/-- The statement fragments parse_file iterates: the raw file content is
split on the terminator, each fragment is stripped, and falsy (empty)
fragments are skipped.  Note the split happens on the raw text; comments
are only removed later, inside parse_statement. -/
def split_statements (content : String) : List String :=
  (((pySplit [';'] content.data).map pyStripL).filter (fun l => l ≠ [])).map String.mk

/-- Concatenate per-statement (or per-file) fact pairs in order, as the
extend calls in parse_file and build do. -/
def concatFacts (rs : List (List TableLineage × List ColumnLineage)) :
    List TableLineage × List ColumnLineage :=
  ((rs.map Prod.fst).flatten, (rs.map Prod.snd).flatten)

/-- GenericSQLParser.parse_file: parse every nonempty stripped fragment
of the file content and concatenate the resulting facts in order. -/
def parse_file (o : List String → List String) (filename content : String) :
    List TableLineage × List ColumnLineage :=
  concatFacts ((split_statements content).map (fun st => parse_statement o st filename))

/-- The parsing phase of MetadataBuilder.build: files are processed in
sorted path order (the caller passes them already sorted, as
sorted(sql_files) does) and their facts concatenated. -/
def build_facts (o : List String → List String) (files : List (String × String)) :
    List TableLineage × List ColumnLineage :=
  concatFacts (files.map (fun f => parse_file o f.1 f.2))

/-- Modelled from the spec: the splitter the specification describes,
which removes comments from the whole script first and only then splits
the cleaned text on the terminator, discarding empty or whitespace-only
fragments.  Stated for comparison with split_statements, which is what
parse_file actually does. -/
def spec_split_statements (content : String) : List String :=
  (((pySplit [';'] (clean_sql content).data).map pyStripL).filter (fun l => l ≠ [])).map String.mk

/-- Modelled from the spec: the per-file extraction with the
specification's clean-before-split order, for comparison with
parse_file. -/
def spec_parse_file (o : List String → List String) (filename content : String) :
    List TableLineage × List ColumnLineage :=
  concatFacts ((spec_split_statements content).map (fun st => parse_statement o st filename))

/-! ## Identifier validation (debug_engine.py, SAFE_IDENTIFIER and
validate_identifier) -/

/-- A character the identifier pattern allows in first position:
[a-zA-Z_]. -/
def isIdentStart (c : Char) : Bool :=
  charBetween 'a' 'z' c || charBetween 'A' 'Z' c || c = '_'

/-- A character the identifier pattern allows after the first position:
[a-zA-Z0-9_]. -/
def isIdentChar (c : Char) : Bool :=
  isIdentStart c || charBetween '0' '9' c

/-- The second segment of the identifier pattern, after the dot:
[a-zA-Z_][a-zA-Z0-9_]*, running to the end of the text. -/
def identSecond : List Char → Bool
  | [] => false
  | c :: cs => isIdentStart c && cs.all isIdentChar

/-- The rest of the identifier pattern after its first character:
[a-zA-Z0-9_]* then an optional dot introducing the second segment, then
the end of the text.  A dot hands over to identSecond (whose characters
cannot include a further dot); any other character must be a word
character. -/
def identTail : List Char → Bool
  | [] => true
  | c :: cs => if c = '.' then identSecond cs else isIdentChar c && identTail cs

/-- The body of SAFE_IDENTIFIER between its anchors, as a deterministic
scan: a first character [a-zA-Z_] followed by identTail.  This matches a
text exactly when the regular expression
[a-zA-Z_][a-zA-Z0-9_]*(dot [a-zA-Z_][a-zA-Z0-9_]*)? matches all of it:
the starred word characters are consumed one at a time, and the optional
dot group starts at the first dot, the only place it can. -/
def SAFE_IDENTIFIER_body : List Char → Bool
  | [] => false
  | c :: cs => isIdentStart c && identTail cs

/-- SAFE_IDENTIFIER.match(s) as CPython evaluates it: the match is
anchored at the start, and the final dollar of the pattern matches at the
end of the string or just before a single newline that ends the string,
so a lone trailing newline is tolerated. -/
def SAFE_IDENTIFIER_match (s : String) : Bool :=
  SAFE_IDENTIFIER_body (if s.data.getLast? = some '\n' then s.data.dropLast else s.data)

/-- The ValueError message raised by validate_identifier. -/
def invalid_identifier_msg (idType name : String) : String :=
  "Invalid " ++ idType ++ ": '" ++ name ++ "'\n" ++
  "Only letters, numbers, and underscores allowed."

/-- validate_identifier from debug_engine.py: rejects (raises ValueError,
modelled as Except.error) an empty name or a name the SAFE_IDENTIFIER
pattern does not match, before the name reaches any generated query text,
and otherwise returns the name unchanged. -/
def validate_identifier (name : String) (idType : String) : Except String String :=
  if name = "" || !SAFE_IDENTIFIER_match name then
    .error (invalid_identifier_msg idType name)
  else
    .ok name

/-- The identifier shape the specification describes, written from the
spec's words: the pattern name or schema.name where name is
[A-Za-z_][A-Za-z0-9_]*, with nothing after it.  Used to compare the
specified acceptance set with the implemented one. -/
def spec_identifier_shape (s : String) : Bool :=
  SAFE_IDENTIFIER_body s.data

/-! ## The metadata store as seen by the query engine

The query engine reads two fact tables through a DuckDB connection.  The
store is modelled in two layers.  MetaDB is the state a query observes
once the listing of the meta schema performed by _check_metadata_exists
has succeeded: whether each fact table appears in that listing, the rows
of the two tables and, for each table, an optional error that a read of
it raises (a store failure caught by the try/except around the fact
query).  The listing read itself (list_tables('meta'), a connector
execute with no exception handling around its call sites in
trace_column_lineage and get_upstream_tables) can also fail — a missing
or locked database file raises out of those methods; that uncaught
outcome is carried by the connection layer Except String MetaDB used by
get_upstream_tables_conn below: the error value is the exception the
listing read raises, and the ok value is the observed state. -/

/-- The state of the metadata store a DebugEngine query observes when
the meta-schema listing read succeeds. -/
structure MetaDB where
  /-- Is meta.table_lineage present in the listing of the meta schema? -/
  has_table_lineage : Bool
  /-- Is meta.column_lineage present in the listing of the meta schema? -/
  has_column_lineage : Bool
  /-- Rows of meta.table_lineage. -/
  table_rows : List TableLineage
  /-- Rows of meta.column_lineage. -/
  column_rows : List ColumnLineage
  /-- When set, reading meta.table_lineage raises this error. -/
  tl_query_error : Option String
  /-- When set, reading meta.column_lineage raises this error. -/
  cl_query_error : Option String

/-! ## trace_column_lineage (debug_engine.py) -/

/-- The report trace_column_lineage returns when the column-lineage fact
table is absent from the store. -/
def metadata_missing_report (colTableName : String) : String :=
  "❌ Metadata table not found: " ++ colTableName ++ "\n" ++
  "   Run build_metadata.py first to create lineage data."

/-- The report trace_column_lineage returns when the fact table exists
but holds no row for the requested target and column. -/
def no_lineage_report (target_table target_column : String) : String :=
  "❌ No lineage found for: " ++ target_table ++ "." ++ target_column ++ "\n" ++
  "\n" ++
  "Possible reasons:\n" ++
  "  • Column doesn't exist in metadata\n" ++
  "  • Run build_metadata.py to refresh\n" ++
  "  • Column might be a simple pass-through"

/-- The lines the matched-fact report emits for one non-key field of the
row: nothing when the value is falsy or whitespace-only, a header line
plus one indented line per embedded line when the value is multi-line,
and a single line otherwise. -/
def report_field_lines (col value : String) : List String :=
  if value ≠ "" && pyStrip value ≠ "" then
    if value.data.contains '\n' then
      ("║  📦 " ++ col ++ ":") ::
        ((pySplit ['\n'] value.data).map (fun line => "║     " ++ String.mk line))
    else
      ["║  📦 " ++ col ++ ": " ++ value]
  else
    []

/-- The 63-character horizontal rule of the report frame, written as a
replication to match the literal in the source. -/
def boxRule : String :=
  String.mk (List.replicate 63 '═')

/-- The title line of the report frame: the title text padded with 38
spaces before the closing edge, as the literal in the source. -/
def boxTitle : String :=
  "║  🔍 COLUMN LINEAGE REPORT" ++ String.mk (List.replicate 38 ' ') ++ "║"

/-- The matched-fact report of trace_column_lineage, built from the first
matching row: the frame, the target line, and the non-key fields of the
row in column order. -/
def lineage_report (target_table target_column : String) (row : ColumnLineage) : String :=
  joinNl (["",
           "╔" ++ boxRule ++ "╗",
           boxTitle,
           "╠" ++ boxRule ++ "╣",
           "║  📍 Target: " ++ target_table ++ "." ++ target_column,
           "║"]
    ++ report_field_lines "source_table" row.source_table
    ++ report_field_lines "source_column" row.source_column
    ++ report_field_lines "transformation_logic" row.transformation_logic
    ++ report_field_lines "sql_file_name" row.sql_file_name
    ++ ["║",
        "╚" ++ boxRule ++ "╝",
        ""])

/-- DebugEngine.trace_column_lineage.  colTableName is the configured
column-lineage table name (self.column_lineage_table, by default
meta.column_lineage).  Both identifiers are validated (a failure raises,
modelled as Except.error); a missing fact table, a failing read and an
empty query result each return their distinct report string. -/
def trace_column_lineage (colTableName : String) (db : MetaDB)
    (target_table target_column : String) : Except String String :=
  (validate_identifier target_table "table").bind (fun _ =>
  (validate_identifier target_column "column").bind (fun _ =>
  if !db.has_column_lineage then
    .ok (metadata_missing_report colTableName)
  else
    match db.cl_query_error with
    | some e => .ok ("❌ Query error: " ++ e)
    | none =>
      match db.column_rows.filter
          (fun r => r.target_table = target_table && r.target_column = target_column) with
      | [] => .ok (no_lineage_report target_table target_column)
      | row :: _ => .ok (lineage_report target_table target_column row)))

/-! ## get_upstream_tables and get_lineage_tree (debug_engine.py) -/

/-- DebugEngine.get_upstream_tables, given a successful meta-schema
listing: validate the identifier, return the empty list when
meta.table_lineage is absent from the listing, catch a failing
fact-table read (the only read the method's try/except guards) and
return the empty list, and otherwise return the distinct source_table
values of the rows whose target_table matches. -/
def get_upstream_tables (db : MetaDB) (target_table : String) : Except String (List String) :=
  (validate_identifier target_table "table").bind (fun _ =>
  if !db.has_table_lineage then
    .ok []
  else
    match db.tl_query_error with
    | some _ => .ok []
    | none =>
      .ok (dedupKeepFirst
        ((db.table_rows.filter (fun r => r.target_table = target_table)).map
          TableLineage.source_table)))

/-- DebugEngine.get_upstream_tables as run against the store connection:
after identifier validation the method calls _check_metadata_exists,
whose listing read sits outside the try/except — when that read raises
(the connection state is an error) the exception propagates out of
get_upstream_tables; only on a successful listing does the body above
run.  The inner call re-validates the already-validated identifier,
which cannot fail again. -/
def get_upstream_tables_conn (store : Except String MetaDB) (target_table : String) :
    Except String (List String) :=
  (validate_identifier target_table "table").bind (fun _ =>
  store.bind (fun db => get_upstream_tables db target_table))

/-- The nested dictionary get_lineage_tree builds. -/
inductive LineageTree where
  /-- The truncation leaf returned when max_depth is exhausted. -/
  | truncated
  /-- The leaf returned when a table has no upstream facts. -/
  | isSource
  /-- One child per upstream table, in upstream order. -/
  | node (children : List (String × LineageTree))

/-- Sequence a list of fallible results, stopping at the first error, as
a Python loop of raising calls does. -/
def seqE {α : Type} : List (Except String α) → Except String (List α)
  | [] => .ok []
  | x :: xs =>
    match x with
    | .error e => .error e
    | .ok a => (seqE xs).map (fun l => a :: l)

/-- DebugEngine.get_lineage_tree with the integer depth replaced by fuel:
fuel 0 is the case max_depth less than or equal to zero.  The identifier
is validated first (even at depth zero), then the depth is checked, then
the upstream tables are fetched and each is expanded recursively at one
less depth, an exception in any child propagating. -/
def get_lineage_tree_fuel (db : MetaDB) : Nat → String → Except String LineageTree
  | 0, t => (validate_identifier t "table").map (fun _ => LineageTree.truncated)
  | fuel + 1, t =>
    (validate_identifier t "table").bind (fun _ =>
    (get_upstream_tables db t).bind (fun upstream =>
    if upstream.isEmpty then
      .ok .isSource
    else
      (seqE (upstream.map (fun s =>
        (get_lineage_tree_fuel db fuel s).map (fun sub => (s, sub))))).map .node))

/-- DebugEngine.get_lineage_tree for an arbitrary integer max_depth: the
code checks max_depth less than or equal to zero and recurses at
max_depth minus one, which Int.toNat converts into the fuel above. -/
def get_lineage_tree (db : MetaDB) (target_table : String) (max_depth : Int) :
    Except String LineageTree :=
  get_lineage_tree_fuel db max_depth.toNat target_table

/-- get_lineage_tree as called with the default depth argument, which the
signature sets to 5. -/
def get_lineage_tree_default (db : MetaDB) (target_table : String) :
    Except String LineageTree :=
  get_lineage_tree db target_table 5

/-! ## The transactional metadata build (MetadataBuilder.build, write
phase)

The write phase runs inside one DuckDB transaction: BEGIN, CREATE SCHEMA
IF NOT EXISTS, CREATE OR REPLACE both fact tables, one INSERT per fact,
COMMIT; any exception triggers ROLLBACK and the method returns False
instead of raising.  The store is modelled by the committed contents of
the two fact tables (FactTables below, a field none meaning the table
does not exist); the transaction works on a pending copy that only
becomes visible if COMMIT succeeds, which is DuckDB's documented
transaction semantics.  Which statement fails, if any, is an environment
choice, supplied as the index failAt into the sequence of executed
statements (the index equal to the number of statements meaning COMMIT
itself fails). -/

/-- The committed contents of the metadata fact tables; none means the
table does not exist. -/
structure FactTables where
  /-- Contents of meta.table_lineage, if the table exists. -/
  table_lineage : Option (List TableLineage)
  /-- Contents of meta.column_lineage, if the table exists. -/
  column_lineage : Option (List ColumnLineage)
deriving DecidableEq, Repr

/-- The statements the build transaction executes between BEGIN and
COMMIT, as transformations of the pending store state: the schema
statement (no effect on the fact tables), the two CREATE OR REPLACE
statements, and one INSERT per parsed fact, in source order. -/
def buildSteps (tls : List TableLineage) (cls : List ColumnLineage) :
    List (FactTables → FactTables) :=
  [fun fs => fs,
   fun fs => ⟨some [], fs.column_lineage⟩,
   fun fs => ⟨fs.table_lineage, some []⟩]
  ++ tls.map (fun tl => fun fs => ⟨fs.table_lineage.map (fun l => l ++ [tl]), fs.column_lineage⟩)
  ++ cls.map (fun cl => fun fs => ⟨fs.table_lineage, fs.column_lineage.map (fun l => l ++ [cl])⟩)

/-- Execute the statements in order against the pending state, numbering
them from idx; none is returned when the statement numbered failAt is
reached, modelling the exception it raises. -/
def applySteps : List (FactTables → FactTables) → Option Nat → Nat → FactTables →
    Option FactTables
  | [], _, _, fs => some fs
  | step :: rest, failAt, idx, fs =>
    if failAt = some idx then none
    else applySteps rest failAt (idx + 1) (step fs)

/-- The write phase of MetadataBuilder.build: parse all files, run the
transaction statements against a pending copy of the committed state,
and COMMIT (making the pending state the committed one) or, on any
exception including a COMMIT failure, ROLLBACK (leaving the committed
state untouched) and return False. -/
def metadata_build (o : List String → List String) (files : List (String × String))
    (db : FactTables) (failAt : Option Nat) : Bool × FactTables :=
  let facts := build_facts o files
  let steps := buildSteps facts.1 facts.2
  match applySteps steps failAt 0 db with
  | none => (false, db)
  | some pending =>
    if failAt = some steps.length then (false, db)
    else (true, pending)

/-! ## Relations used by the claims about extraction output -/

/-- The relation maintained by the aggregation loop: any later AGGREGATED
fact has a target_column different from every earlier fact's. -/
def aggSkipRel (a b : ColumnLineage) : Prop :=
  b.source_column = "AGGREGATED" → a.target_column ≠ b.target_column

/-- Two column-lineage facts that agree on every field except that their
comma-joined source display strings list the same source tables in
possibly different orders — the relation two builds of the same scripts
satisfy when their source sets iterate in different orders. -/
def sameUpToSourceOrder (c₁ c₂ : ColumnLineage) : Prop :=
  c₁.target_table = c₂.target_table ∧ c₁.target_column = c₂.target_column ∧
  c₁.source_column = c₂.source_column ∧
  c₁.transformation_logic = c₂.transformation_logic ∧
  c₁.sql_file_name = c₂.sql_file_name ∧
  ∃ l₁ l₂ : List String, l₁.Perm l₂ ∧ c₁.source_table = joinCommaSp l₁ ∧
    c₂.source_table = joinCommaSp l₂

/-! ## Helper lemmas -/

/-- Elements produced by the deduplication are elements of the input. -/
theorem mem_dedupKeepFirstAux (x : String) :
    ∀ (seen l : List String), x ∈ dedupKeepFirstAux seen l → x ∈ l := by
  intro seen l
  induction l generalizing seen with
  | nil => simp [dedupKeepFirstAux]
  | cons y ys ih =>
    simp only [dedupKeepFirstAux]
    by_cases hy : y ∈ seen
    · simp only [hy, if_pos, List.mem_cons]
      intro h
      exact Or.inr (ih _ h)
    · simp only [hy, if_neg, not_false_iff, List.mem_cons]
      intro h
      rcases h with h | h
      · exact Or.inl h
      · exact Or.inr (ih _ h)

/-- The deduplication returns a duplicate-free list avoiding the seen
accumulator. -/
theorem dedupKeepFirstAux_nodup :
    ∀ (seen l : List String), (dedupKeepFirstAux seen l).Nodup ∧
      ∀ x ∈ dedupKeepFirstAux seen l, x ∉ seen := by
  intro seen l
  induction l generalizing seen with
  | nil => simp [dedupKeepFirstAux]
  | cons y ys ih =>
    simp only [dedupKeepFirstAux]
    by_cases hy : y ∈ seen
    · simp only [hy, if_pos]
      exact ⟨(ih seen).1, (ih seen).2⟩
    · simp only [hy, if_neg, not_false_iff]
      constructor
      · refine List.nodup_cons.mpr ⟨?_, (ih (y :: seen)).1⟩
        intro hmem
        exact ((ih (y :: seen)).2 y hmem) (List.mem_cons_self y seen)
      · intro x hx
        rcases List.mem_cons.mp hx with rfl | hx'
        · exact hy
        · intro hxs
          exact ((ih (y :: seen)).2 x hx') (List.mem_cons_of_mem y hxs)

/-- The deduplicated source list has no duplicate strings. -/
theorem dedupKeepFirst_nodup (l : List String) : (dedupKeepFirst l).Nodup :=
  (dedupKeepFirstAux_nodup [] l).1

/-- Membership in the deduplicated list implies membership in the input. -/
theorem mem_dedupKeepFirst {x : String} {l : List String} (h : x ∈ dedupKeepFirst l) : x ∈ l :=
  mem_dedupKeepFirstAux x [] l h

/-! ## Claim C5: the running example and statements without a creation
clause -/

/-- Claim C5: on the statement CREATE TABLE s.fact AS SELECT CASE WHEN
salary > 100000 THEN 'HIGH' ELSE 'LOW' END AS risk_level FROM
raw.job_history j JOIN raw.employees e ON j.emp_id = e.emp_id, extraction
produces exactly two table-lineage facts with target s.fact and sources
raw.job_history and raw.employees, plus exactly one column-lineage fact
for risk_level with category marker COMPUTED whose transformation text is
the full CASE-to-END span; and on any statement whose cleaned text has no
creation clause, extraction produces zero facts. -/
theorem claim_C5 :
    parse_statement id "CREATE TABLE s.fact AS SELECT CASE WHEN salary > 100000 THEN 'HIGH' ELSE 'LOW' END AS risk_level FROM raw.job_history j JOIN raw.employees e ON j.emp_id = e.emp_id" "file.sql" =
      ([⟨"s.fact", "raw.job_history", "CREATE TABLE s.fact AS SELECT CASE WHEN salary > 100000 THEN 'HIGH' ELSE 'LOW' END AS risk_level FROM raw.job_history j JOIN raw.employees e ON j.emp_id = e.emp_id"⟩,
        ⟨"s.fact", "raw.employees", "CREATE TABLE s.fact AS SELECT CASE WHEN salary > 100000 THEN 'HIGH' ELSE 'LOW' END AS risk_level FROM raw.job_history j JOIN raw.employees e ON j.emp_id = e.emp_id"⟩],
       [⟨"s.fact", "risk_level", "raw.job_history, raw.employees", "COMPUTED",
         "CASE WHEN salary > 100000 THEN 'HIGH' ELSE 'LOW' END", "file.sql"⟩])
    ∧ ∀ (o : List String → List String) (sql filename : String),
        createTarget (clean_sql sql).data = none →
        parse_statement o sql filename = ([], []) := by
  constructor
  · decide
  · intro o sql filename h
    simp only [parse_statement, h]

/-- Witness for claim C5: a plain SELECT statement has no creation
clause, and extraction returns zero facts on it. -/
theorem claim_C5_witness :
    parse_statement id "SELECT emp_id FROM raw.employees" "f.sql" = ([], []) :=
  claim_C5.2 id "SELECT emp_id FROM raw.employees" "f.sql" (by decide)

/-! ## Claim C2: comment handling and statement splitting -/

/-- Counterexample to claim C2: the code splits the raw script text on
the terminator before removing comments, so a terminator inside a
single-line comment does produce a statement boundary.  The script
SELECT a -- x; y then newline FROM t yields two fragments though its only
terminator sits inside a comment; and on the script CREATE TABLE t AS
newline SELECT star -- pick; all newline FROM a; the code loses all facts
(the split cuts the statement inside the comment), while the
clean-before-split order the claim describes extracts the table-lineage
fact from t to a. -/
theorem claim_C2_counterexample :
    split_statements "SELECT a -- x; y\nFROM t" = ["SELECT a -- x", "y\nFROM t"]
    ∧ parse_file id "f.sql" "CREATE TABLE t AS\nSELECT * -- pick; all\nFROM a;" = ([], [])
    ∧ spec_parse_file id "f.sql" "CREATE TABLE t AS\nSELECT * -- pick; all\nFROM a;" =
        ([⟨"t", "a", "CREATE TABLE t AS\nSELECT * \nFROM a"⟩], []) := by
  refine ⟨by decide, by decide, by decide⟩

/-- Claim C2, amended: the splitter splits the raw script text on
terminator characters (so a terminator inside a comment does produce a
statement boundary), and every fragment kept is the stripped form of a
raw piece whose stripped form is nonempty, so empty and whitespace-only
fragments are discarded; single-line comments (from the marker to the end
of the line) and block comments are removed from each fragment during
statement parsing, after the split. -/
theorem claim_C2 :
    (∀ content : String, ∀ s ∈ split_statements content,
      ∃ raw ∈ pySplit [';'] content.data, s = String.mk (pyStripL raw) ∧ pyStripL raw ≠ [])
    ∧ (∀ (o : List String → List String) (filename content : String),
        parse_file o filename content =
          concatFacts ((split_statements content).map (fun st => parse_statement o st filename)))
    ∧ clean_sql "SELECT a -- comment; x\nFROM t" = "SELECT a \nFROM t"
    ∧ clean_sql "SELECT a /* block\n comment */ FROM t" = "SELECT a  FROM t" := by
  refine ⟨?_, fun o filename content => rfl, by decide, by decide⟩
  intro content s hs
  simp only [split_statements, List.mem_map, List.mem_filter] at hs
  obtain ⟨l, ⟨hl, hne⟩, rfl⟩ := hs
  obtain ⟨raw, hraw, rfl⟩ := hl
  exact ⟨raw, hraw, rfl, by simpa using hne⟩

/-- Witness for claim C2: on a concrete two-statement script, each kept
fragment is the nonempty stripped form of a raw piece of the
terminator split. -/
theorem claim_C2_witness :
    ∃ raw ∈ pySplit [';'] ("CREATE TABLE a AS SELECT 1; \n ".data),
      "CREATE TABLE a AS SELECT 1" = String.mk (pyStripL raw) ∧ pyStripL raw ≠ [] :=
  claim_C2.1 "CREATE TABLE a AS SELECT 1; \n " "CREATE TABLE a AS SELECT 1" (by decide)

/-! ## Claim C3: deduplication and self-reference exclusion of source
tables -/

/-- Counterexample to claim C3: source references are deduplicated by
case-sensitive string equality, not case-insensitively.  On CREATE TABLE
t AS SELECT * FROM raw.a JOIN RAW.A, the collected source set holds both
raw.a and RAW.A, two references equal under case-insensitive comparison,
and two table-lineage facts are emitted. -/
theorem claim_C3_counterexample :
    sourcesOf "t" (clean_sql "CREATE TABLE t AS SELECT * FROM raw.a JOIN RAW.A").data =
      ["raw.a", "RAW.A"]
    ∧ (parse_statement id "CREATE TABLE t AS SELECT * FROM raw.a JOIN RAW.A" "f.sql").1.map
        TableLineage.source_table = ["raw.a", "RAW.A"]
    ∧ pyLower "raw.a" = pyLower "RAW.A" := by
  refine ⟨by decide, by decide, by decide⟩

/-- Claim C3, amended: for every statement and every set-iteration order,
the emitted source tables contain each referenced name at most once under
case-sensitive (exact string) comparison — not case-insensitive — and no
emitted source is case-insensitively equal to the target table
(self-references are excluded case-insensitively). -/
theorem claim_C3 (o : List String → List String) (ho : ∀ l, (o l).Perm l)
    (sql filename : String) :
    ((parse_statement o sql filename).1.map TableLineage.source_table).Nodup
    ∧ ∀ tl ∈ (parse_statement o sql filename).1,
        pyLower tl.source_table ≠ pyLower tl.target_table := by
  simp only [parse_statement]
  cases h : createTarget (clean_sql sql).data with
  | none => simp
  | some target =>
    simp only [List.map_map]
    constructor
    · have : (TableLineage.source_table ∘ fun s =>
          (⟨target, s, clean_sql sql⟩ : TableLineage)) = fun s => s := rfl
      rw [this, List.map_id']
      exact ((ho (sourcesOf target (clean_sql sql).data)).nodup_iff).mpr
        (dedupKeepFirst_nodup _)
    · intro tl htl
      obtain ⟨s, hs, rfl⟩ := List.mem_map.mp htl
      have hs' : s ∈ sourcesOf target (clean_sql sql).data :=
        (ho (sourcesOf target (clean_sql sql).data)).mem_iff.mp hs
      have hs'' := mem_dedupKeepFirst hs'
      have := (List.mem_filter.mp hs'').2
      simpa using this

/-- Witness for claim C3: with the identity iteration order on a
statement joining the same table under two spellings, the emitted source
list is duplicate-free as strings and no source equals the target
case-insensitively. -/
theorem claim_C3_witness :
    ((parse_statement id "CREATE TABLE t AS SELECT * FROM raw.a JOIN RAW.A JOIN T" "f.sql").1.map
      TableLineage.source_table).Nodup
    ∧ ∀ tl ∈ (parse_statement id "CREATE TABLE t AS SELECT * FROM raw.a JOIN RAW.A JOIN T" "f.sql").1,
        pyLower tl.source_table ≠ pyLower tl.target_table :=
  claim_C3 id (fun l => List.Perm.refl l) "CREATE TABLE t AS SELECT * FROM raw.a JOIN RAW.A JOIN T" "f.sql"

/-! ## Claim C4: duplicate-column handling of the column-lineage loops -/

/-- Invariant of the aggregation loop: starting from an accumulator whose
facts are COMPUTED or AGGREGATED, pairwise in aggSkipRel, and with no
COMPUTED/AGGREGATED pair sharing a column, the loop preserves all three
properties. -/
theorem addAggFacts_invariant (target srcStr filename : String) :
    ∀ (ms : List (String × String)) (acc : List ColumnLineage),
      (∀ c ∈ acc, c.source_column = "COMPUTED" ∨ c.source_column = "AGGREGATED") →
      List.Pairwise aggSkipRel acc →
      (∀ a ∈ acc, ∀ b ∈ acc, a.source_column = "COMPUTED" → b.source_column = "AGGREGATED" →
        a.target_column ≠ b.target_column) →
      (∀ c ∈ addAggFacts target srcStr filename acc ms,
        c.source_column = "COMPUTED" ∨ c.source_column = "AGGREGATED")
      ∧ List.Pairwise aggSkipRel (addAggFacts target srcStr filename acc ms)
      ∧ (∀ a ∈ addAggFacts target srcStr filename acc ms,
          ∀ b ∈ addAggFacts target srcStr filename acc ms,
          a.source_column = "COMPUTED" → b.source_column = "AGGREGATED" →
          a.target_column ≠ b.target_column) := by
  intro ms
  induction ms with
  | nil => intro acc h₁ h₂ h₃; exact ⟨h₁, h₂, h₃⟩
  | cons m ms ih =>
    intro acc h₁ h₂ h₃
    simp only [addAggFacts]
    by_cases hskip : acc.any (fun cl => cl.target_column = m.2)
    · simp only [hskip, if_pos]
      exact ih acc h₁ h₂ h₃
    · simp only [hskip, if_neg, not_false_iff]
      have hnew : ∀ cl ∈ acc, ¬cl.target_column = m.2 := by
        intro cl hcl
        by_contra hc
        exact hskip (List.any_eq_true.mpr ⟨cl, hcl, by simpa using hc⟩)
      refine ih _ ?_ ?_ ?_
      · intro c hc
        rcases List.mem_append.mp hc with hc | hc
        · exact h₁ c hc
        · simp only [List.mem_singleton] at hc
          subst hc
          exact Or.inr rfl
      · rw [List.pairwise_append]
        refine ⟨h₂, List.pairwise_singleton _ _, ?_⟩
        intro a ha b hb
        simp only [List.mem_singleton] at hb
        subst hb
        intro _
        exact hnew a ha
      · intro a ha b hb hac hbag
        rcases List.mem_append.mp ha with ha | ha
        · rcases List.mem_append.mp hb with hb | hb
          · exact h₃ a ha b hb hac hbag
          · simp only [List.mem_singleton] at hb
            subst hb
            exact hnew a ha
        · simp only [List.mem_singleton] at ha
          subst ha
          simp at hac

/-- Counterexample to claim C4: two CASE matches carrying the same column
name each record a fact, so a (target_table, target_column) pair can
receive two column-lineage facts.  On the statement with two CASE spans
both aliased flag, extraction records two COMPUTED facts for (t, flag). -/
theorem claim_C4_counterexample :
    (parse_statement id "CREATE TABLE t AS SELECT CASE WHEN a = 1 THEN 1 ELSE 0 END AS flag, CASE WHEN b = 2 THEN 2 ELSE 0 END AS flag FROM s" "f.sql").2.map
      (fun c => (c.target_table, c.target_column, c.source_column)) =
      [("t", "flag", "COMPUTED"), ("t", "flag", "COMPUTED")] := by
  decide

/-- Claim C4, amended: every recorded column fact is COMPUTED or
AGGREGATED; an aggregate match is skipped whenever any earlier recorded
fact (conditional or aggregate) has exactly the same column name, so an
AGGREGATED fact never repeats the column of any earlier fact and no
column ever carries both a COMPUTED and an AGGREGATED fact — when both a
conditional and an aggregate match claim the same column name the
recorded fact is the COMPUTED one.  At-most-one-per-pair does not hold
for multiple conditional matches of the same column (see the
counterexample). -/
theorem claim_C4 (o : List String → List String) (sql filename : String) :
    (∀ c ∈ (parse_statement o sql filename).2,
      c.source_column = "COMPUTED" ∨ c.source_column = "AGGREGATED")
    ∧ List.Pairwise aggSkipRel (parse_statement o sql filename).2
    ∧ (∀ a ∈ (parse_statement o sql filename).2, ∀ b ∈ (parse_statement o sql filename).2,
        a.source_column = "COMPUTED" → b.source_column = "AGGREGATED" →
        a.target_column ≠ b.target_column) := by
  simp only [parse_statement]
  cases h : createTarget (clean_sql sql).data with
  | none => simp [aggSkipRel]
  | some target =>
    simp only
    apply addAggFacts_invariant
    · intro c hc
      obtain ⟨m, _, rfl⟩ := List.mem_map.mp hc
      exact Or.inl rfl
    · refine List.pairwise_of_forall_mem_list ?_
      intro a ha b hb
      obtain ⟨m, _, rfl⟩ := List.mem_map.mp hb
      intro hag
      simp at hag
    · intro a _ b hb _ hbag
      obtain ⟨m, _, rfl⟩ := List.mem_map.mp hb
      simp at hbag

/-- Witness for claim C4: on a statement where a CASE match and an
aggregate match both claim the column x, the single recorded fact for x
is the COMPUTED one (the theorem's disjunction holds at it, and it is not
AGGREGATED). -/
theorem claim_C4_witness :
    ((⟨"t", "x", "s", "COMPUTED", "CASE WHEN a THEN 1 END", "f.sql"⟩ : ColumnLineage).source_column
        = "COMPUTED"
      ∨ (⟨"t", "x", "s", "COMPUTED", "CASE WHEN a THEN 1 END", "f.sql"⟩ : ColumnLineage).source_column
        = "AGGREGATED")
    ∧ (parse_statement id "CREATE TABLE t AS SELECT CASE WHEN a THEN 1 END AS x, COUNT(b) AS x FROM s" "f.sql").2 =
        [⟨"t", "x", "s", "COMPUTED", "CASE WHEN a THEN 1 END", "f.sql"⟩] :=
  ⟨(claim_C4 id "CREATE TABLE t AS SELECT CASE WHEN a THEN 1 END AS x, COUNT(b) AS x FROM s" "f.sql").1
      ⟨"t", "x", "s", "COMPUTED", "CASE WHEN a THEN 1 END", "f.sql"⟩ (by decide),
   by decide⟩

/-! ## Claim C8: identifier validation at the query boundary -/

/-- Every character of a text accepted by identSecond is a word
character. -/
theorem identSecond_chars :
    ∀ l : List Char, identSecond l = true → ∀ c ∈ l, isIdentChar c = true := by
  intro l hl c hc
  cases l with
  | nil => cases hc
  | cons d ds =>
    simp only [identSecond, Bool.and_eq_true] at hl
    rcases List.mem_cons.mp hc with rfl | hc'
    · simp only [isIdentChar, hl.1, Bool.true_or]
    · exact List.all_eq_true.mp hl.2 c hc'

/-- Every character of a text accepted by identTail is a word character
or the dot. -/
theorem identTail_chars :
    ∀ l : List Char, identTail l = true → ∀ c ∈ l, isIdentChar c = true ∨ c = '.' := by
  intro l
  induction l with
  | nil => intro _ c hc; cases hc
  | cons d ds ih =>
    intro hl c hc
    simp only [identTail] at hl
    by_cases hd : d = '.'
    · rw [if_pos hd] at hl
      rcases List.mem_cons.mp hc with rfl | hc'
      · exact Or.inr hd
      · exact Or.inl (identSecond_chars ds hl c hc')
    · rw [if_neg hd] at hl
      simp only [Bool.and_eq_true] at hl
      rcases List.mem_cons.mp hc with rfl | hc'
      · exact Or.inl hl.1
      · exact ih hl.2 c hc'

/-- Every character of a text the identifier pattern body accepts is a
word character or the dot; in particular no accepted text contains a
newline. -/
theorem SAFE_IDENTIFIER_body_chars :
    ∀ l : List Char, SAFE_IDENTIFIER_body l = true → ∀ c ∈ l, isIdentChar c = true ∨ c = '.' := by
  intro l hl c hc
  cases l with
  | nil => cases hc
  | cons d ds =>
    simp only [SAFE_IDENTIFIER_body, Bool.and_eq_true] at hl
    rcases List.mem_cons.mp hc with rfl | hc'
    · exact Or.inl (by simp only [isIdentChar, hl.1, Bool.true_or])
    · exact identTail_chars ds hl.2 c hc'

/-- A text ending in a newline is rejected by the identifier pattern
body. -/
theorem SAFE_IDENTIFIER_body_no_trailing_newline
    {l : List Char} (h : l.getLast? = some '\n') : SAFE_IDENTIFIER_body l = false := by
  by_contra hb
  have hb' : SAFE_IDENTIFIER_body l = true := by
    cases hbody : SAFE_IDENTIFIER_body l
    · exact absurd hbody hb
    · rfl
  have hmem : '\n' ∈ l := by
    have := List.dropLast_append_getLast? '\n' h
    rw [← this]
    exact List.mem_append_right _ (List.mem_singleton_self _)
  rcases SAFE_IDENTIFIER_body_chars l hb' '\n' hmem with hch | hch
  · simp [isIdentChar, isIdentStart, charBetween] at hch
  · cases hch

/-- Counterexample to claim C8: the dollar anchor of a Python regular
expression also matches just before a newline that ends the string, so
validate_identifier accepts the string employees followed by a newline,
which does not match the claimed pattern name or schema.name; the
accepted string, newline included, is what the function returns for
interpolation. -/
theorem claim_C8_counterexample :
    validate_identifier "employees\n" "table" = .ok "employees\n"
    ∧ spec_identifier_shape "employees\n" = false := by
  refine ⟨by decide, by decide⟩

/-- Claim C8, amended: a string is accepted by the query-boundary
validation exactly when it matches the pattern name or schema.name with
name being [A-Za-z_][A-Za-z0-9_]*, or is such a match followed by one
trailing newline (a consequence of Python dollar-anchor semantics);
the strings emp; DROP TABLE x, ' OR 1=1 and the empty string are all
rejected with the validation error before reaching any query text, while
raw.employees and employees are accepted. -/
theorem claim_C8 :
    (∀ s ty : String, validate_identifier s ty = .ok s ↔
      (spec_identifier_shape s = true ∨
        (s.data.getLast? = some '\n' ∧ SAFE_IDENTIFIER_body s.data.dropLast = true)))
    ∧ validate_identifier "emp; DROP TABLE x" "table"
        = .error (invalid_identifier_msg "table" "emp; DROP TABLE x")
    ∧ validate_identifier "' OR 1=1" "table"
        = .error (invalid_identifier_msg "table" "' OR 1=1")
    ∧ validate_identifier "" "table" = .error (invalid_identifier_msg "table" "")
    ∧ validate_identifier "raw.employees" "table" = .ok "raw.employees"
    ∧ validate_identifier "employees" "column" = .ok "employees" := by
  have hok_iff : ∀ s ty : String,
      validate_identifier s ty = .ok s ↔ (¬s = "" ∧ SAFE_IDENTIFIER_match s = true) := by
    intro s ty
    by_cases h : s = ""
    · subst h
      constructor
      · intro hok
        unfold validate_identifier at hok
        simp at hok
      · intro hc
        exact absurd rfl hc.1
    · cases hm : SAFE_IDENTIFIER_match s
      · unfold validate_identifier
        rw [if_pos]
        · constructor
          · intro hok
            cases hok
          · intro hc
            cases hc.2
        · simp [h, hm]
      · unfold validate_identifier
        rw [if_neg]
        · simp [h]
        · simp [h, hm]
  refine ⟨?_, by decide, by decide, by decide, by decide, by decide⟩
  intro s ty
  rw [hok_iff s ty]
  unfold SAFE_IDENTIFIER_match spec_identifier_shape
  by_cases hlast : s.data.getLast? = some '\n'
  · rw [if_pos hlast]
    have hne : ¬s = "" := by
      intro h
      subst h
      exact absurd hlast (by decide)
    have hfull : SAFE_IDENTIFIER_body s.data = false :=
      SAFE_IDENTIFIER_body_no_trailing_newline hlast
    rw [hfull]
    constructor
    · intro hc
      exact Or.inr ⟨hlast, hc.2⟩
    · intro hc
      rcases hc with hc | hc
      · cases hc
      · exact ⟨hne, hc.2⟩
  · rw [if_neg hlast]
    constructor
    · intro hc
      exact Or.inl hc.2
    · intro hc
      rcases hc with hc | hc
      · refine ⟨?_, hc⟩
        intro he
        subst he
        exact absurd hc (by decide)
      · exact absurd hc.1 hlast

/-! ## Claim C6: termination rules of the lineage tree -/

/-- Claim C6: for every store and every validated target,
get_lineage_tree applies its termination rules in priority order: a
non-positive max_depth returns the truncated leaf regardless of upstream
facts; otherwise an empty upstream set returns the is-source leaf;
otherwise the result maps each upstream table to its recursively
computed subtree at max_depth minus one; and the default max_depth is 5. -/
theorem claim_C6 :
    (∀ (db : MetaDB) (t : String) (d : Int), validate_identifier t "table" = .ok t →
      d ≤ 0 → get_lineage_tree db t d = .ok .truncated)
    ∧ (∀ (db : MetaDB) (t : String) (d : Int), validate_identifier t "table" = .ok t →
        0 < d → get_upstream_tables db t = .ok [] →
        get_lineage_tree db t d = .ok .isSource)
    ∧ (∀ (db : MetaDB) (t : String) (d : Int) (up : List String),
        validate_identifier t "table" = .ok t → 0 < d →
        get_upstream_tables db t = .ok up → up ≠ [] →
        get_lineage_tree db t d =
          (seqE (up.map (fun s =>
            (get_lineage_tree db s (d - 1)).map (fun sub => (s, sub))))).map LineageTree.node)
    ∧ (∀ (db : MetaDB) (t : String), get_lineage_tree_default db t = get_lineage_tree db t 5) := by
  refine ⟨?_, ?_, ?_, fun db t => rfl⟩
  · intro db t d hv hd
    have h0 : d.toNat = 0 := by omega
    unfold get_lineage_tree
    rw [h0]
    simp only [get_lineage_tree_fuel, hv, Except.map]
  · intro db t d hv hd hup
    have h1 : d.toNat = (d.toNat - 1) + 1 := by omega
    unfold get_lineage_tree
    rw [h1]
    simp only [get_lineage_tree_fuel, hv, hup, Except.bind, List.isEmpty_nil, if_pos]
  · intro db t d up hv hd hup hne
    have h1 : d.toNat = (d.toNat - 1) + 1 := by omega
    have h2 : (d - 1).toNat = d.toNat - 1 := by omega
    unfold get_lineage_tree
    rw [h1]
    simp only [get_lineage_tree_fuel, hv, hup, Except.bind]
    rw [if_neg (by simpa [List.isEmpty_iff] using hne)]
    rw [h2]

/-- Witness for claim C6, on a concrete store where conformed.churn has
the single upstream table raw.employees and raw.employees has none: depth
zero returns the truncated leaf although upstream facts exist; a leaf
table at the default depth returns the is-source leaf; a positive depth
expands each upstream table one level lower; and the default depth is 5. -/
theorem claim_C6_witness :
    get_lineage_tree ⟨true, true, [⟨"conformed.churn", "raw.employees", "q"⟩], [], none, none⟩
        "conformed.churn" 0 = .ok .truncated
    ∧ get_lineage_tree ⟨true, true, [⟨"conformed.churn", "raw.employees", "q"⟩], [], none, none⟩
        "raw.employees" 5 = .ok .isSource
    ∧ get_lineage_tree ⟨true, true, [⟨"conformed.churn", "raw.employees", "q"⟩], [], none, none⟩
        "conformed.churn" 5 =
        (seqE (["raw.employees"].map (fun s =>
          (get_lineage_tree ⟨true, true, [⟨"conformed.churn", "raw.employees", "q"⟩], [], none, none⟩
            s (5 - 1)).map (fun sub => (s, sub))))).map LineageTree.node
    ∧ get_lineage_tree_default ⟨true, true, [⟨"conformed.churn", "raw.employees", "q"⟩], [], none, none⟩
        "conformed.churn" =
      get_lineage_tree ⟨true, true, [⟨"conformed.churn", "raw.employees", "q"⟩], [], none, none⟩
        "conformed.churn" 5 :=
  ⟨claim_C6.1 _ "conformed.churn" 0 (by decide) (by decide),
   claim_C6.2.1 _ "raw.employees" 5 (by decide) (by decide) (by decide),
   claim_C6.2.2.1 _ "conformed.churn" 5 ["raw.employees"] (by decide) (by decide) (by decide)
     (by decide),
   claim_C6.2.2.2 _ "conformed.churn"⟩

/-! ## Claim C7: the two negative reports of trace_column_lineage -/

/-- Appending cannot make two strings equal when they start with
different prefixes of equal length. -/
theorem string_append_ne_of_prefix_ne (p q a b : String)
    (hlen : p.data.length = q.data.length) (hne : p.data ≠ q.data) : p ++ a ≠ q ++ b := by
  intro h
  have hd := congrArg String.data h
  rw [String.data_append, String.data_append] at hd
  exact hne (List.append_inj_left hd hlen)

/-- The metadata-missing report and the no-lineage report differ for
every configured table name, target and column: their fixed leading
texts already differ. -/
theorem metadata_missing_report_ne_no_lineage_report (n t c : String) :
    metadata_missing_report n ≠ no_lineage_report t c := by
  unfold metadata_missing_report no_lineage_report
  have h₁ : "❌ Metadata table not found: " = "❌ Metad" ++ "ata table not found: " := by decide
  have h₂ : "❌ No lineage found for: " = "❌ No li" ++ "neage found for: " := by decide
  rw [h₁, h₂]
  rw [String.append_assoc, String.append_assoc, String.append_assoc, String.append_assoc,
    String.append_assoc, String.append_assoc, String.append_assoc, String.append_assoc]
  exact string_append_ne_of_prefix_ne "❌ Metad" "❌ No li" _ _ (by decide) (by decide)

/-- Claim C7: for validated identifiers, trace_column_lineage returns the
metadata-missing report when the column-lineage fact table is absent, the
distinct no-lineage report when the table exists, the read succeeds and
no row matches, and the two outcomes are never equal, so callers can
distinguish them. -/
theorem claim_C7 (colTableName : String) (db₁ db₂ : MetaDB) (t c : String)
    (hv₁ : validate_identifier t "table" = .ok t)
    (hv₂ : validate_identifier c "column" = .ok c)
    (h₁ : db₁.has_column_lineage = false)
    (h₂ : db₂.has_column_lineage = true)
    (h₃ : db₂.cl_query_error = none)
    (h₄ : db₂.column_rows.filter
        (fun r => r.target_table = t && r.target_column = c) = []) :
    trace_column_lineage colTableName db₁ t c = .ok (metadata_missing_report colTableName)
    ∧ trace_column_lineage colTableName db₂ t c = .ok (no_lineage_report t c)
    ∧ trace_column_lineage colTableName db₁ t c ≠ trace_column_lineage colTableName db₂ t c := by
  have e₁ : trace_column_lineage colTableName db₁ t c = .ok (metadata_missing_report colTableName) := by
    unfold trace_column_lineage
    rw [hv₁, hv₂]
    simp only [Except.bind, h₁, Bool.not_false, if_pos]
  have e₂ : trace_column_lineage colTableName db₂ t c = .ok (no_lineage_report t c) := by
    unfold trace_column_lineage
    rw [hv₁, hv₂]
    simp only [Except.bind, h₂, Bool.not_true, Bool.false_eq_true, if_false, h₃, h₄]
  refine ⟨e₁, e₂, ?_⟩
  rw [e₁, e₂]
  intro h
  have := Except.ok.inj h
  exact metadata_missing_report_ne_no_lineage_report colTableName t c this

/-- Witness for claim C7 on concrete stores: a store without the fact
table yields the metadata-missing report, a store with an empty fact
table yields the no-lineage report, and the two results differ. -/
theorem claim_C7_witness :
    trace_column_lineage "meta.column_lineage" ⟨true, false, [], [], none, none⟩
        "conformed.churn" "risk_level" = .ok (metadata_missing_report "meta.column_lineage")
    ∧ trace_column_lineage "meta.column_lineage" ⟨true, true, [], [], none, none⟩
        "conformed.churn" "risk_level" = .ok (no_lineage_report "conformed.churn" "risk_level")
    ∧ trace_column_lineage "meta.column_lineage" ⟨true, false, [], [], none, none⟩
        "conformed.churn" "risk_level"
      ≠ trace_column_lineage "meta.column_lineage" ⟨true, true, [], [], none, none⟩
        "conformed.churn" "risk_level" :=
  claim_C7 "meta.column_lineage" ⟨true, false, [], [], none, none⟩ ⟨true, true, [], [], none, none⟩
    "conformed.churn" "risk_level" (by decide) (by decide) rfl rfl rfl rfl

/-! ## Claim C10: fallbacks of get_upstream_tables, and the uncaught
listing read -/

/-- Counterexample to claim C10: get_upstream_tables is not total.  The
metadata-existence check it runs before its try/except performs a store
read with no exception handling, so on a store whose listing read raises
— here a failure to open the database file — the method raises instead
of returning a list, even for a valid identifier. -/
theorem claim_C10_counterexample :
    validate_identifier "conformed.churn" "table" = .ok "conformed.churn"
    ∧ get_upstream_tables_conn (Except.error "IO Error: unable to open database file")
        "conformed.churn" = Except.error "IO Error: unable to open database file" := by
  refine ⟨by decide, by decide⟩

/-- Claim C10, amended: for every valid table identifier, a failure of
the uncaught metadata-existence listing read propagates out of
get_upstream_tables (the function is not total); whenever that listing
read succeeds the function never raises — it always returns a list: the
empty list when the table-lineage fact table is absent from the listing,
and the empty list when the guarded fact-table read fails, so at the
public interface that guarded store error is indistinguishable from a
leaf table that has no upstream facts. -/
theorem claim_C10 (db dbMissing dbError dbEmpty : MetaDB) (t e : String)
    (hv : validate_identifier t "table" = .ok t)
    (h₁ : dbMissing.has_table_lineage = false)
    (h₂ : dbError.tl_query_error.isSome = true)
    (h₃ : dbEmpty.has_table_lineage = true)
    (h₄ : dbEmpty.tl_query_error = none)
    (h₅ : dbEmpty.table_rows.filter (fun r => r.target_table = t) = []) :
    get_upstream_tables_conn (.error e) t = .error e
    ∧ get_upstream_tables_conn (.ok db) t = get_upstream_tables db t
    ∧ (∃ l : List String, get_upstream_tables db t = .ok l)
    ∧ get_upstream_tables dbMissing t = .ok []
    ∧ get_upstream_tables dbError t = .ok []
    ∧ get_upstream_tables dbError t = get_upstream_tables dbEmpty t := by
  have econn_err : get_upstream_tables_conn (.error e) t = .error e := by
    unfold get_upstream_tables_conn
    rw [hv]
    rfl
  have econn_ok : get_upstream_tables_conn (.ok db) t = get_upstream_tables db t := by
    unfold get_upstream_tables_conn
    rw [hv]
    rfl
  have etot : ∀ db' : MetaDB, ∃ l : List String, get_upstream_tables db' t = .ok l := by
    intro db'
    unfold get_upstream_tables
    rw [hv]
    simp only [Except.bind]
    cases hb : db'.has_table_lineage
    · exact ⟨[], by simp⟩
    · simp only [Bool.not_true, Bool.false_eq_true, if_false]
      cases he : db'.tl_query_error
      · exact ⟨_, rfl⟩
      · exact ⟨[], rfl⟩
  have emiss : get_upstream_tables dbMissing t = .ok [] := by
    unfold get_upstream_tables
    rw [hv]
    simp only [Except.bind, h₁, Bool.not_false, if_pos]
  have eerr : get_upstream_tables dbError t = .ok [] := by
    unfold get_upstream_tables
    rw [hv]
    obtain ⟨e, he⟩ := Option.isSome_iff_exists.mp h₂
    cases hb : dbError.has_table_lineage
    · simp only [Except.bind, Bool.not_false, if_pos]
    · simp only [Except.bind, Bool.not_true, Bool.false_eq_true, if_false, he]
  have eempty : get_upstream_tables dbEmpty t = .ok [] := by
    unfold get_upstream_tables
    rw [hv]
    simp only [Except.bind, h₃, Bool.not_true, Bool.false_eq_true, if_false, h₄, h₅]
    simp [dedupKeepFirst, dedupKeepFirstAux]
  exact ⟨econn_err, econn_ok, etot db, emiss, eerr, by rw [eerr, eempty]⟩

/-- Witness for claim C10 on concrete stores: a failing listing read
propagates its exception; on successful listings, a store without the
fact table, a store whose guarded fact-table read raises, and a store
with no matching rows all yield the empty upstream list, the last two
indistinguishably. -/
theorem claim_C10_witness :
    get_upstream_tables_conn (Except.error "db locked") "a" = Except.error "db locked"
    ∧ get_upstream_tables_conn (Except.ok ⟨true, true, [⟨"a", "b", "q"⟩], [], none, none⟩) "a"
      = get_upstream_tables ⟨true, true, [⟨"a", "b", "q"⟩], [], none, none⟩ "a"
    ∧ (∃ l : List String,
      get_upstream_tables ⟨true, true, [⟨"a", "b", "q"⟩], [], none, none⟩ "a" = .ok l)
    ∧ get_upstream_tables ⟨false, false, [], [], none, none⟩ "a" = .ok []
    ∧ get_upstream_tables ⟨true, true, [⟨"a", "b", "q"⟩], [], some "io error", none⟩ "a" = .ok []
    ∧ get_upstream_tables ⟨true, true, [⟨"a", "b", "q"⟩], [], some "io error", none⟩ "a"
      = get_upstream_tables ⟨true, true, [], [], none, none⟩ "a" :=
  claim_C10 ⟨true, true, [⟨"a", "b", "q"⟩], [], none, none⟩
    ⟨false, false, [], [], none, none⟩
    ⟨true, true, [⟨"a", "b", "q"⟩], [], some "io error", none⟩
    ⟨true, true, [], [], none, none⟩
    "a" "db locked" (by decide) rfl rfl rfl rfl rfl

/-! ## Claim C9: atomicity of the metadata rebuild -/

/-- When the transaction body runs to completion, its result is the left
fold of the statements over the initial pending state. -/
theorem applySteps_eq_foldl :
    ∀ (steps : List (FactTables → FactTables)) (failAt : Option Nat) (idx : Nat)
      (fs out : FactTables),
      applySteps steps failAt idx fs = some out → out = steps.foldl (fun a f => f a) fs := by
  intro steps
  induction steps with
  | nil =>
    intro failAt idx fs out h
    simp only [applySteps] at h
    simp only [List.foldl_nil]
    exact (Option.some.inj h).symm
  | cons step rest ih =>
    intro failAt idx fs out h
    simp only [applySteps] at h
    by_cases hf : failAt = some idx
    · rw [if_pos hf] at h
      cases h
    · rw [if_neg hf] at h
      simpa using ih failAt (idx + 1) (step fs) out h

/-- Folding the per-table-lineage insert statements appends every fact to
the table-lineage contents. -/
theorem foldl_insert_table (tls : List TableLineage) :
    ∀ (acc : List TableLineage) (c : Option (List ColumnLineage)),
      (tls.map (fun tl => fun fs : FactTables =>
          (⟨fs.table_lineage.map (fun l => l ++ [tl]), fs.column_lineage⟩ : FactTables))).foldl
        (fun a f => f a) ⟨some acc, c⟩ = ⟨some (acc ++ tls), c⟩ := by
  induction tls with
  | nil => intro acc c; simp
  | cons tl tls ih =>
    intro acc c
    simp only [List.map_cons, List.foldl_cons]
    have hred : (⟨Option.map (fun l => l ++ [tl]) (some acc), c⟩ : FactTables)
        = ⟨some (acc ++ [tl]), c⟩ := rfl
    rw [hred, ih (acc ++ [tl]) c]
    simp

/-- Folding the per-column-lineage insert statements appends every fact
to the column-lineage contents. -/
theorem foldl_insert_column (cls : List ColumnLineage) :
    ∀ (acc : List ColumnLineage) (tb : Option (List TableLineage)),
      (cls.map (fun cl => fun fs : FactTables =>
          (⟨fs.table_lineage, fs.column_lineage.map (fun l => l ++ [cl])⟩ : FactTables))).foldl
        (fun a f => f a) ⟨tb, some acc⟩ = ⟨tb, some (acc ++ cls)⟩ := by
  induction cls with
  | nil => intro acc tb; simp
  | cons cl cls ih =>
    intro acc tb
    simp only [List.map_cons, List.foldl_cons]
    have hred : (⟨tb, Option.map (fun l => l ++ [cl]) (some acc)⟩ : FactTables)
        = ⟨tb, some (acc ++ [cl])⟩ := rfl
    rw [hred, ih (acc ++ [cl]) tb]
    simp

/-- Folding the whole statement sequence of one build over any initial
state yields exactly the two freshly created, fully inserted fact
tables. -/
theorem foldl_buildSteps (tls : List TableLineage) (cls : List ColumnLineage) (fs : FactTables) :
    (buildSteps tls cls).foldl (fun a f => f a) fs =
      ⟨some tls, some cls⟩ := by
  unfold buildSteps
  rw [List.foldl_append, List.foldl_append]
  have h₀ : ([fun fs : FactTables => fs,
      fun fs : FactTables => (⟨some [], fs.column_lineage⟩ : FactTables),
      fun fs : FactTables => (⟨fs.table_lineage, some []⟩ : FactTables)]).foldl
      (fun a f => f a) fs = (⟨some [], some []⟩ : FactTables) := rfl
  rw [h₀, foldl_insert_table tls [] (some [])]
  simp only [List.nil_append]
  rw [foldl_insert_column cls [] (some tls)]
  simp

/-- Claim C9: the metadata rebuild is atomic — for every file set, every
prior store state and every possible failure point, either the build
returns the success signal and the store holds exactly the full
replacement fact set (both fact tables recreated and bulk-inserted), or
the build returns the failure signal and the store is exactly its
pre-build state. -/
theorem claim_C9 (o : List String → List String) (files : List (String × String))
    (db : FactTables) (failAt : Option Nat) :
    ((metadata_build o files db failAt).1 = true ∧
      (metadata_build o files db failAt).2 =
        ⟨some (build_facts o files).1, some (build_facts o files).2⟩)
    ∨ ((metadata_build o files db failAt).1 = false ∧
        (metadata_build o files db failAt).2 = db) := by
  cases happ : applySteps (buildSteps (build_facts o files).1 (build_facts o files).2) failAt 0 db with
  | none =>
    refine Or.inr ?_
    simp [metadata_build, happ]
  | some pending =>
    by_cases hc : failAt = some (buildSteps (build_facts o files).1 (build_facts o files).2).length
    · refine Or.inr ?_
      simp only [metadata_build, happ]
      rw [if_pos hc]
      exact ⟨rfl, rfl⟩
    · refine Or.inl ?_
      simp only [metadata_build, happ]
      rw [if_neg hc]
      refine ⟨rfl, ?_⟩
      have hpend := applySteps_eq_foldl _ failAt 0 db pending happ
      simp only
      rw [hpend, foldl_buildSteps]

/-! ## Claim C1: determinism of the build pass -/

/-- Rebuilding a string from its character list is the identity. -/
theorem stringMk_data (s : String) : String.mk s.data = s := by
  cases s
  rfl

/-- Two maps over one list are pointwise related when the two functions
are related at every element. -/
theorem forall₂_map_map {α β γ : Type} (R : β → γ → Prop) (f : α → β) (g : α → γ)
    (l : List α) (h : ∀ x ∈ l, R (f x) (g x)) : List.Forall₂ R (l.map f) (l.map g) := by
  induction l with
  | nil => exact List.Forall₂.nil
  | cons x xs ih =>
    exact List.Forall₂.cons (h x (List.mem_cons_self x xs))
      (ih (fun y hy => h y (List.mem_cons_of_mem x hy)))

/-- Pointwise-related lists agree on any predicate the relation
preserves. -/
theorem forall₂_any_eq {α β : Type} (R : α → β → Prop) (p : α → Bool) (q : β → Bool)
    (hpq : ∀ a b, R a b → p a = q b) :
    ∀ (l₁ : List α) (l₂ : List β), List.Forall₂ R l₁ l₂ → l₁.any p = l₂.any q := by
  intro l₁ l₂ h
  induction h with
  | nil => rfl
  | cons hab _ ih => simp only [List.any_cons, hpq _ _ hab, ih]

/-- The source display strings of two iterations of one source set (a
permutation apart) list the same sources up to order; with no sources
both display the UNKNOWN marker. -/
theorem srcDisplay_rel {srcs₁ srcs₂ : List String} (hp : srcs₁.Perm srcs₂) :
    ∃ l₁ l₂ : List String, l₁.Perm l₂ ∧
      (if srcs₁.isEmpty then "UNKNOWN" else joinCommaSp srcs₁) = joinCommaSp l₁ ∧
      (if srcs₂.isEmpty then "UNKNOWN" else joinCommaSp srcs₂) = joinCommaSp l₂ := by
  by_cases h₁ : srcs₁ = []
  · subst h₁
    have h₂ : srcs₂ = [] := hp.symm.eq_nil
    subst h₂
    refine ⟨["UNKNOWN"], ["UNKNOWN"], List.Perm.refl _, ?_, ?_⟩ <;>
      simp [joinCommaSp, joinSepL, stringMk_data]
  · have h₂ : ¬srcs₂ = [] := by
      intro he
      subst he
      exact h₁ hp.eq_nil
    rw [if_neg (by simpa [List.isEmpty_iff] using h₁),
      if_neg (by simpa [List.isEmpty_iff] using h₂)]
    exact ⟨srcs₁, srcs₂, hp, rfl, rfl⟩

/-- The aggregation loop carries the up-to-source-order relation through:
related accumulators and matching display strings stay related after
processing the same aggregate matches, because the skip test looks only
at target columns, on which related facts agree. -/
theorem addAggFacts_rel (target filename s₁ s₂ : String)
    (hsrc : ∃ l₁ l₂ : List String, l₁.Perm l₂ ∧ s₁ = joinCommaSp l₁ ∧ s₂ = joinCommaSp l₂) :
    ∀ (ms : List (String × String)) (acc₁ acc₂ : List ColumnLineage),
      List.Forall₂ sameUpToSourceOrder acc₁ acc₂ →
      List.Forall₂ sameUpToSourceOrder (addAggFacts target s₁ filename acc₁ ms)
        (addAggFacts target s₂ filename acc₂ ms) := by
  intro ms
  induction ms with
  | nil => intro acc₁ acc₂ hacc; exact hacc
  | cons m ms ih =>
    intro acc₁ acc₂ hacc
    simp only [addAggFacts]
    have hany : acc₁.any (fun cl => cl.target_column = m.2)
        = acc₂.any (fun cl => cl.target_column = m.2) := by
      refine forall₂_any_eq sameUpToSourceOrder _ _ ?_ acc₁ acc₂ hacc
      intro a b hab
      rw [hab.2.1]
    rw [← hany]
    cases hskip : acc₁.any (fun cl => cl.target_column = m.2)
    · simp only [Bool.false_eq_true, if_false]
      refine ih _ _ (List.rel_append hacc ?_)
      exact List.Forall₂.cons ⟨rfl, rfl, rfl, rfl, rfl, hsrc⟩ List.Forall₂.nil
    · simp only [if_pos]
      exact ih _ _ hacc

/-- Two runs of the extractor on one statement, with any two iteration
orders of the source set, emit the same table-lineage facts up to order
and pointwise up-to-source-order equal column facts. -/
theorem parse_statement_rel (o₁ o₂ : List String → List String)
    (h₁ : ∀ l, (o₁ l).Perm l) (h₂ : ∀ l, (o₂ l).Perm l) (sql filename : String) :
    ((parse_statement o₁ sql filename).1).Perm ((parse_statement o₂ sql filename).1)
    ∧ List.Forall₂ sameUpToSourceOrder
        (parse_statement o₁ sql filename).2 (parse_statement o₂ sql filename).2 := by
  simp only [parse_statement]
  cases h : createTarget (clean_sql sql).data with
  | none => exact ⟨List.Perm.refl _, List.Forall₂.nil⟩
  | some target =>
    simp only
    have hp : (o₁ (sourcesOf target (clean_sql sql).data)).Perm
        (o₂ (sourcesOf target (clean_sql sql).data)) :=
      (h₁ _).trans (h₂ _).symm
    constructor
    · exact hp.map _
    · refine addAggFacts_rel target filename _ _ (srcDisplay_rel hp) _ _ _ ?_
      refine forall₂_map_map sameUpToSourceOrder _ _ (caseMatches (clean_sql sql).data) ?_
      intro m _
      exact ⟨rfl, rfl, rfl, rfl, rfl, srcDisplay_rel hp⟩

/-- Two runs of the per-file extraction agree up to source-set iteration
order. -/
theorem parse_file_rel (o₁ o₂ : List String → List String)
    (h₁ : ∀ l, (o₁ l).Perm l) (h₂ : ∀ l, (o₂ l).Perm l) (filename content : String) :
    ((parse_file o₁ filename content).1).Perm ((parse_file o₂ filename content).1)
    ∧ List.Forall₂ sameUpToSourceOrder
        (parse_file o₁ filename content).2 (parse_file o₂ filename content).2 := by
  unfold parse_file concatFacts
  constructor
  · refine List.Perm.flatten_congr ?_
    simp only [List.map_map]
    refine forall₂_map_map _ _ _ (split_statements content) ?_
    intro st _
    exact (parse_statement_rel o₁ o₂ h₁ h₂ st filename).1
  · refine List.rel_flatten ?_
    simp only [List.map_map]
    refine forall₂_map_map _ _ _ (split_statements content) ?_
    intro st _
    exact (parse_statement_rel o₁ o₂ h₁ h₂ st filename).2

/-- Claim C1, amended: a build pass over a fixed script set is
deterministic only up to the iteration order of the per-statement source
sets (which CPython draws from the per-process string hash seed): two
runs emit the same table-lineage fact multiset (a permutation of one
another, identical when the orders agree) and pointwise matching column
facts whose comma-joined source display strings list the same source
tables, possibly in different orders.  Byte-identical fact sequences are
not guaranteed across interpreter invocations (see the counterexample). -/
theorem claim_C1 (o₁ o₂ : List String → List String)
    (h₁ : ∀ l, (o₁ l).Perm l) (h₂ : ∀ l, (o₂ l).Perm l)
    (files : List (String × String)) :
    ((build_facts o₁ files).1).Perm ((build_facts o₂ files).1)
    ∧ List.Forall₂ sameUpToSourceOrder (build_facts o₁ files).2 (build_facts o₂ files).2 := by
  unfold build_facts concatFacts
  constructor
  · refine List.Perm.flatten_congr ?_
    simp only [List.map_map]
    refine forall₂_map_map _ _ _ files ?_
    intro f _
    exact (parse_file_rel o₁ o₂ h₁ h₂ f.1 f.2).1
  · refine List.rel_flatten ?_
    simp only [List.map_map]
    refine forall₂_map_map _ _ _ files ?_
    intro f _
    exact (parse_file_rel o₁ o₂ h₁ h₂ f.1 f.2).2

/-- Counterexample to claim C1: with the same single script file, two
legitimate iteration orders of the two-element source set produce
different byte sequences — the comma-joined source display string of the
aggregated column fact comes out as raw.a, raw.b in one run and
raw.b, raw.a in the other, and the two table-lineage fact sequences are
also swapped — so a rebuild in a fresh interpreter process (fresh string
hash seed) need not reproduce the previous bytes. -/
theorem claim_C1_counterexample :
    (build_facts id [("etl.sql", "CREATE TABLE t AS SELECT COUNT(x) AS n FROM raw.a JOIN raw.b")]).2.map
      ColumnLineage.source_table = ["raw.a, raw.b"]
    ∧ (build_facts List.reverse
        [("etl.sql", "CREATE TABLE t AS SELECT COUNT(x) AS n FROM raw.a JOIN raw.b")]).2.map
      ColumnLineage.source_table = ["raw.b, raw.a"]
    ∧ build_facts id [("etl.sql", "CREATE TABLE t AS SELECT COUNT(x) AS n FROM raw.a JOIN raw.b")]
      ≠ build_facts List.reverse
        [("etl.sql", "CREATE TABLE t AS SELECT COUNT(x) AS n FROM raw.a JOIN raw.b")] := by
  refine ⟨by decide, by decide, by decide⟩

/-- Witness for claim C1: the identity order and the reversed order are
both permutations, and on the concrete script the two builds' outputs are
permutation-related table facts and pointwise source-order-related column
facts. -/
theorem claim_C1_witness :
    ((build_facts id [("etl.sql", "CREATE TABLE t AS SELECT COUNT(x) AS n FROM raw.a JOIN raw.b")]).1).Perm
      ((build_facts List.reverse
        [("etl.sql", "CREATE TABLE t AS SELECT COUNT(x) AS n FROM raw.a JOIN raw.b")]).1)
    ∧ List.Forall₂ sameUpToSourceOrder
        (build_facts id [("etl.sql", "CREATE TABLE t AS SELECT COUNT(x) AS n FROM raw.a JOIN raw.b")]).2
        (build_facts List.reverse
          [("etl.sql", "CREATE TABLE t AS SELECT COUNT(x) AS n FROM raw.a JOIN raw.b")]).2 :=
  claim_C1 id List.reverse (fun l => List.Perm.refl l) (fun l => List.reverse_perm l)
    [("etl.sql", "CREATE TABLE t AS SELECT COUNT(x) AS n FROM raw.a JOIN raw.b")]

end DebugAI

